import Mathlib

/-!
Shallow embedding of `pyacdc_dvm1.py` (pyAC-DC, AC-DC difference measurement
of thermal voltage converters).

Conventions of the embedding:
* Python/numpy floating-point scalars are modelled as rationals `ℚ`;
  detector readings (strings parsed with `float(a.strip())` in the source)
  are modelled directly as the parsed numbers.
* `numpy.std(l, ddof=1)` returns the square root of the unbiased sample
  variance.  Square roots are irrational in general, so the embedding
  carries the radicand: every field that the source fills with a numpy
  standard deviation holds here the unbiased sample *variance* (the square
  of the value the source stores).  The std is zero exactly when the
  variance field is zero.
* Instrument I/O is modelled by oracles (functions giving the reading the
  detector would return at each step) and by explicit event traces for the
  switch-routing / settling / detector-read commands.
* The one place where IEEE special values matter (claim about the NaN
  behaviour of the DC safety comparison) uses a dedicated small model `FV`
  of float values with `nan`/`±inf`; everywhere else plain `ℚ` is used.
-/

/-- Switch routing modes: `reset = chr(2)`, `ac = chr(4)`, `dc = chr(6)`. -/
inductive SwMode where
  | rst : SwMode
  | acM : SwMode
  | dcM : SwMode
deriving DecidableEq, Repr

/-- Instrument events emitted by the measurement routines: switch routing
commands (`sw.write_raw`), settling waits (`espera`), detector reads
(`ler_std` / `ler_dut`) and source output disables (`OUTPx OFF`). -/
inductive Event where
  | route : SwMode → Event
  | wait : ℚ → Event
  | readStd : Event
  | readDut : Event
  | outputOff : ℕ → Event
deriving DecidableEq, Repr

/-- `numpy.mean` of a list: sum divided by length (0 for the empty list,
as `ℚ` division by zero is 0). -/
def numpy_mean (l : List ℚ) : ℚ := l.sum / l.length

/-- Radicand of `numpy.std(l, ddof=1)`: the unbiased sample variance
`sum((a - mean)²) / (N - 1)`. -/
def numpy_var1 (l : List ℚ) : ℚ :=
  (l.map (fun a => (a - numpy_mean l) ^ 2)).sum / ((l.length : ℚ) - 1)

/-- Model of `numpy.interp(x, [xp0, xp1], [fp0, fp1])` for two sample
points with `xp0 ≤ xp1` (numpy requires `xp` nondecreasing): the value is
clamped to `fp0` below `xp0` and to `fp1` above `xp1`, and is the linear
interpolant in between.  numpy does *not* extrapolate outside the range. -/
def numpy_interp2 (x xp0 xp1 fp0 fp1 : ℚ) : ℚ :=
  if x ≤ xp0 then fp0
  else if xp1 ≤ x then fp1
  else fp0 + (x - xp0) * (fp1 - fp0) / (xp1 - xp0)

/-- The four entries of the `results` list built by `n_measure`:
`[mean(nX), std(nX), mean(nY), std(nY)]`.  The `var` fields carry the
radicand of the numpy standard deviation (see file header). -/
structure NResults where
  nX_mean : ℚ
  nX_var : ℚ
  nY_mean : ℚ
  nY_var : ℚ
deriving DecidableEq, Repr

/-- Return value of `n_measure` (the computational content of the dict
`{'results', 'Xi', 'X0', 'Yi', 'Y0', 'k', 'nX', 'nY'}`), plus the list
`vi` of DC voltages the loop programs into the source. -/
structure NMeas where
  results : NResults
  Xi : List ℚ
  X0 : ℚ
  Yi : List ℚ
  Y0 : ℚ
  k : List ℚ
  vi : List ℚ
  nX : List ℚ
  nY : List ℚ
deriving DecidableEq, Repr

/-- Embedding of `n_measure(M)`.  `reads j` is the pair
(`ler_std`, `ler_dut`) the detector returns at the `j`-th read of the
routine: `reads 0` is the baseline pair `(X0, Y0)` taken at nominal DC,
and `reads i` for `i = 1..M'` is the pair taken at the `i`-th perturbed
level.  The source first forces `M` even (`if M % 2 != 0: M += 1`), then
loops `for i in range(1, M+1)` with `Vi = 1.01*vdc_nominal, k=100` for odd
`i` and `Vi = 0.99*vdc_nominal, k=-100` for even `i`, deletes the baseline
from the reading lists, and computes `nX = (Xi/X0 - 1)*k`,
`nY = (Yi/Y0 - 1)*k` and their numpy mean / std (ddof=1). -/
def n_measure_calc (M : ℕ) (vdc_nominal : ℚ) (reads : ℕ → ℚ × ℚ) : NMeas :=
  let M' := if M % 2 ≠ 0 then M + 1 else M
  let idx := List.range M'
  let k : List ℚ := idx.map (fun j => if (j + 1) % 2 = 0 then -100 else 100)
  let vi : List ℚ := idx.map (fun j =>
    if (j + 1) % 2 = 0 then 99/100 * vdc_nominal else 101/100 * vdc_nominal)
  let X0 := (reads 0).1
  let Y0 := (reads 0).2
  let Xi : List ℚ := idx.map (fun j => (reads (j + 1)).1)
  let Yi : List ℚ := idx.map (fun j => (reads (j + 1)).2)
  let nX : List ℚ := List.zipWith (fun x kv => (x / X0 - 1) * kv) Xi k
  let nY : List ℚ := List.zipWith (fun y kv => (y / Y0 - 1) * kv) Yi k
  { results :=
      { nX_mean := numpy_mean nX, nX_var := numpy_var1 nX
        nY_mean := numpy_mean nY, nY_var := numpy_var1 nY }
    Xi := Xi, X0 := X0, Yi := Yi, Y0 := Y0, k := k, vi := vi
    nX := nX, nY := nY }

/-- One 5-phase cycle of readings as returned by `measure`:
`std_readings` / `dut_readings` are the lists of 5 parsed readings for the
standard and the device, phases `[AC, DC, AC, DC, AC]`, together with the
instrument event trace the routine issued. -/
structure MeasureOut where
  std_readings : List ℚ
  dut_readings : List ℚ
  events : List Event
deriving DecidableEq, Repr

/-- Event trace of one routed-and-settled sampled phase of `measure`:
`sw.write_raw(m); espera(wait_time); ler_std(); ler_dut()`. -/
def phase_events (m : SwMode) (wait_time : ℚ) : List Event :=
  [Event.route m, Event.wait wait_time, Event.readStd, Event.readDut]

/-- Embedding of `measure(vdc_atual, vac_atual, ciclo_ac)` (renamed here
because `measure` is taken by the Lean core library).
`ciclo_ac` is `none` for the Python empty list `[]` (first repetition) and
`some (s, d)` for the two-element carry-over list
`[readings['std_readings'][4], readings['dut_readings'][4]]`.
`fresh p` is the pair of readings the detector would return at phase `p`.
The routine programs the source, waits 2 s, then: phase 0 either reuses
the carry-over pair with no routing/settling/read, or routes to AC,
settles and reads; phases 1–4 route DC, AC, DC, AC, each settling
`wait_time` and reading both channels. -/
def measure_acdc (vdc_atual vac_atual : ℚ) (ciclo_ac : Option (ℚ × ℚ))
    (fresh : ℕ → ℚ × ℚ) (wait_time : ℚ) : MeasureOut :=
  let tail_std := [(fresh 1).1, (fresh 2).1, (fresh 3).1, (fresh 4).1]
  let tail_dut := [(fresh 1).2, (fresh 2).2, (fresh 3).2, (fresh 4).2]
  let tail_events :=
    phase_events SwMode.dcM wait_time ++ phase_events SwMode.acM wait_time ++
    phase_events SwMode.dcM wait_time ++ phase_events SwMode.acM wait_time
  match ciclo_ac with
  | none =>
      { std_readings := (fresh 0).1 :: tail_std
        dut_readings := (fresh 0).2 :: tail_dut
        events := Event.wait 2 :: phase_events SwMode.acM wait_time ++ tail_events }
  | some (s, d) =>
      { std_readings := s :: tail_std
        dut_readings := d :: tail_dut
        events := Event.wait 2 :: tail_events }

/-- Return value of `acdc_calc` (the dict
`{'std_readings', 'dut_readings', 'dif', 'Delta', 'adj_dc', 'timestamp'}`
without the timestamp). -/
structure CalcOut where
  std_readings : List ℚ
  dut_readings : List ℚ
  dif : ℚ
  Dlt : ℚ
  adj_dc : ℚ
deriving DecidableEq, Repr

/-- Embedding of `acdc_calc(readings, N, vdc_atual)`: with
`n_X = N[0]` (mean of nX), `n_Y = N[2]` (mean of nY),
`Xac = mean(x[0], x[2], x[4])`, `Xdc = mean(x[1], x[3])` (same for `y`),
`X = Xac/Xdc - 1`, `Y = Yac/Ydc - 1`, it returns
`dif = 1e6*((X/n_X - Y/n_Y)/(1 + Y/n_Y))`, `Delta = 1e6*(Yac - Ydc)` and
`adj_dc = vdc_atual*(1 + (Yac - Ydc)/(n_Y*Ydc))`. -/
def acdc_calc (readings : MeasureOut) (N : NResults) (vdc_atual : ℚ) : CalcOut :=
  let n_X := N.nX_mean
  let n_Y := N.nY_mean
  let x := readings.std_readings
  let y := readings.dut_readings
  let Xac := numpy_mean [x.getD 0 0, x.getD 2 0, x.getD 4 0]
  let Xdc := numpy_mean [x.getD 1 0, x.getD 3 0]
  let Yac := numpy_mean [y.getD 0 0, y.getD 2 0, y.getD 4 0]
  let Ydc := numpy_mean [y.getD 1 0, y.getD 3 0]
  let X := Xac / Xdc - 1
  let Y := Yac / Ydc - 1
  { std_readings := x, dut_readings := y
    dif := 1000000 * ((X / n_X - Y / n_Y) / (1 + Y / n_Y))
    Dlt := 1000000 * (Yac - Ydc)
    adj_dc := vdc_atual * (1 + (Yac - Ydc) / (n_Y * Ydc)) }

/-- Embedding of the computation of `equilibrio()`:
`r 0`, `r 1`, `r 2` are the three parsed `ler_dut()` readings taken in
order; the source sets `yp = [0.999*vac_nominal, 1.001*vac_nominal]`,
`xp = [r 1, r 2]`, `xi = r 0`, and returns `numpy.interp(xi, xp, yp)`. -/
def equilibrio_calc (vac_nominal : ℚ) (r : ℕ → ℚ) : ℚ :=
  numpy_interp2 (r 0) (r 1) (r 2)
    (999/1000 * vac_nominal) (1001/1000 * vac_nominal)

/-- Spec-side definition (refinement comparison for the equilibrium
claim): the value at `x` of the straight line through `(x0, y0)` and
`(x1, y1)` — linear interpolation or extrapolation with no clamping. -/
def lineThrough (x0 y0 x1 y1 x : ℚ) : ℚ :=
  y0 + (x - x0) * (y1 - y0) / (x1 - x0)

/-- Event trace of `stop_instruments()`: route switch to RESET, wait 1 s,
disable both source outputs. -/
def stop_instruments_events : List Event :=
  [Event.route SwMode.rst, Event.wait 1, Event.outputOff 1, Event.outputOff 2]

/-- Configuration read from `config.ini` that the measurement loop uses. -/
structure MeasConfig where
  vac_nominal : ℚ
  vdc_nominal : ℚ
  wait_time : ℚ
  repeticoes : ℕ
deriving DecidableEq, Repr

/-- One persisted measurement row (`registro_linha`): cycle readings,
difference, Delta and the DC voltage applied at that cycle.  The ambient
snapshot and timestamp carry no computational content and are omitted. -/
structure MeasRecord where
  std_readings : List ℚ
  dut_readings : List ℚ
  dif : ℚ
  Dlt : ℚ
  vdc : ℚ
deriving DecidableEq, Repr

/-- State of the sampling `while (i < repeticoes)` loop in `main`:
accepted count `i`, accepted-difference and Delta lists, persisted record
rows, current applied DC voltage and the carried-over trailing AC reading
pair (`none` on the first repetition, matching `first_measure`). -/
structure LoopState where
  i : ℕ
  diff_acdc : List ℚ
  Dlt : List ℚ
  recs : List MeasRecord
  vdc_atual : ℚ
  ciclo_ac : Option (ℚ × ℚ)
deriving DecidableEq, Repr

/-- Initial loop state (`diff_acdc = []`, `Delta = []`,
`vdc_atual = vdc_nominal`, `i = 0`, first measurement has no carry). -/
def initLoopState (cfg : MeasConfig) : LoopState :=
  { i := 0, diff_acdc := [], Dlt := [], recs := [], vdc_atual := cfg.vdc_nominal
    ciclo_ac := none }

/-- One iteration of the sampling loop body (`main`, the body of
`while (i < repeticoes)`), given the fresh detector readings `fresh` for
this cycle.  Returns the state after the iteration together with the
abort flag of the DC safety check
(`if vdc_atual > 1.1*vdc_nominal: raise`).  In the source the carry-over
`ciclo_ac` is assigned from the previous `readings` at the top of the next
iteration; equivalently the state records the trailing phase-4 pair here. -/
def loop_iter (cfg : MeasConfig) (nv : NResults) (vac_atual : ℚ)
    (s : LoopState) (fresh : ℕ → ℚ × ℚ) : LoopState × Bool :=
  let readings := measure_acdc s.vdc_atual vac_atual s.ciclo_ac fresh cfg.wait_time
  let results := acdc_calc readings nv s.vdc_atual
  let s' :=
    if |results.Dlt| > 50 then s
    else
      { s with
        diff_acdc := s.diff_acdc ++ [results.dif]
        Dlt := s.Dlt ++ [results.Dlt]
        recs := s.recs ++
          [{ std_readings := readings.std_readings
             dut_readings := readings.dut_readings
             dif := results.dif, Dlt := results.Dlt, vdc := s.vdc_atual }]
        i := s.i + 1 }
  let s'' :=
    { s' with
      vdc_atual := results.adj_dc
      ciclo_ac := some (readings.std_readings.getD 4 0, readings.dut_readings.getD 4 0) }
  (s'', decide (s''.vdc_atual > 11/10 * cfg.vdc_nominal))

/-- Result of running the sampling loop: normal completion with the final
state, abort by the DC safety check (`raise NameError(...)`) with the
state at the raise, or fuel exhaustion (the model's bound on a loop that
the source does not bound). -/
inductive LoopRes where
  | finished : LoopState → LoopRes
  | aborted : LoopState → LoopRes
  | outOfFuel : LoopRes
deriving DecidableEq, Repr

/-- Whether the loop run ended in the DC safety abort. -/
def LoopRes.isAborted : LoopRes → Bool
  | .aborted _ => true
  | _ => false

/-- The sampling loop `while (i < repeticoes)` of `main`, fuel-bounded.
`reads c` gives the fresh detector readings of the `c`-th executed cycle
(accepted or discarded). -/
def run_loop (cfg : MeasConfig) (nv : NResults) (vac_atual : ℚ)
    (reads : ℕ → ℕ → ℚ × ℚ) : ℕ → ℕ → LoopState → LoopRes
  | fuel, c, s =>
    if s.i ≥ cfg.repeticoes then LoopRes.finished s
    else
      match fuel with
      | 0 => LoopRes.outOfFuel
      | fuel' + 1 =>
        let p := loop_iter cfg nv vac_atual s (reads c)
        if p.2 then LoopRes.aborted p.1
        else run_loop cfg nv vac_atual reads fuel' (c + 1) p.1

/-- Instrument readings driving one frequency point of `main`:
`nReads` feeds `n_measure`, `eqReads` the three `ler_dut()` readings of
`equilibrio`, `cycleReads c p` the phase-`p` reading pair of the `c`-th
sampling cycle, and `fuel` bounds the (source-unbounded) sampling loop. -/
structure FreqEnv where
  nReads : ℕ → ℚ × ℚ
  eqReads : ℕ → ℚ
  cycleReads : ℕ → ℕ → ℚ × ℚ
  fuel : ℕ

/-- The two `raise NameError(...)` sites of `main`: equilibrium AC voltage
dangerously high, and adjusted DC voltage dangerously high. -/
inductive MainError where
  | acHigh : MainError
  | dcHigh : MainError
deriving DecidableEq, Repr

/-- Outcome of one frequency point of `main`'s `for value in freq_array`
loop: completed with the final loop state, raised one of the two safety
errors, or (model only) ran out of fuel — the source would loop on. -/
inductive PointResult where
  | ok : LoopState → PointResult
  | err : MainError → PointResult
  | stuck : PointResult
deriving DecidableEq, Repr

/-- The linearity coefficients computed for a frequency point:
`n_array = n_measure(4)` (fixed count 4 in `main`). -/
def freq_n (cfg : MeasConfig) (env : FreqEnv) : NResults :=
  (n_measure_calc 4 cfg.vdc_nominal env.nReads).results

/-- The equilibrium AC voltage computed for a frequency point:
`vac_atual = equilibrio()`. -/
def freq_vac (cfg : MeasConfig) (env : FreqEnv) : ℚ :=
  equilibrio_calc cfg.vac_nominal env.eqReads

/-- The sampling loop of a frequency point, started from the initial
state with the point's linearity coefficients and equilibrium voltage. -/
def freq_loop (cfg : MeasConfig) (env : FreqEnv) : LoopRes :=
  run_loop cfg (freq_n cfg env) (freq_vac cfg env) env.cycleReads
    env.fuel 0 (initLoopState cfg)

/-- One frequency point of `main`: run `n_measure(4)` (its result is
used, never checked), run `equilibrio()`, raise if
`vac_atual > 1.1*vac_nominal`, then run the sampling loop, which either
completes or raises on `vdc_atual > 1.1*vdc_nominal`.  There is no
other fault path: in particular nothing between `n_measure` and
`equilibrio` inspects the linearity means. -/
def freqPoint (cfg : MeasConfig) (env : FreqEnv) : PointResult :=
  if freq_vac cfg env > 11/10 * cfg.vac_nominal then PointResult.err MainError.acHigh
  else
    match freq_loop cfg env with
    | LoopRes.finished s => PointResult.ok s
    | LoopRes.aborted _ => PointResult.err MainError.dcHigh
    | LoopRes.outOfFuel => PointResult.stuck

/-- The per-frequency summary written by `registro_media`: numpy mean and
(radicand of the) numpy ddof=1 standard deviation of the accepted
difference list. -/
def registro_media_summary (diferenca : List ℚ) : ℚ × ℚ :=
  (numpy_mean diferenca, numpy_var1 diferenca)

/-- How `main`'s run ends: normal completion, a raised error caught by
the top-level `except`, or (model only) nontermination of a sampling
loop. -/
inductive Terminal where
  | normal : Terminal
  | errored : MainError → Terminal
  | nonterminating : Terminal
deriving DecidableEq, Repr

/-- Result of a whole run: the summaries of the completed frequency
points in order, and how the run ended. -/
structure RunOut where
  completed : List (ℚ × ℚ)
  terminal : Terminal
deriving DecidableEq, Repr

/-- The `for value in freq_array` loop of `main` over the per-point
environments: each completed point appends its `registro_media` summary;
a raised error abandons all remaining frequency points. -/
def runPts (cfg : MeasConfig) : List FreqEnv → RunOut
  | [] => { completed := [], terminal := Terminal.normal }
  | env :: rest =>
    match freqPoint cfg env with
    | PointResult.ok s =>
      let r := runPts cfg rest
      { completed := registro_media_summary s.diff_acdc :: r.completed
        terminal := r.terminal }
    | PointResult.err e => { completed := [], terminal := Terminal.errored e }
    | PointResult.stuck => { completed := [], terminal := Terminal.nonterminating }

/-- Whether `stop_instruments()` runs for a given run ending: `main`
calls it both on normal completion and in the top-level `except` handler,
but an infinitely looping run never reaches either call. -/
def shutdownRan (r : RunOut) : Bool :=
  match r.terminal with
  | Terminal.nonterminating => false
  | _ => true

/-- Minimal model of IEEE-754 double values as Python/numpy produce them
in `acdc_calc`: a finite value (exact, no rounding), the two infinities,
or NaN.  Used only for the claims about the float semantics of the DC
safety comparison. -/
inductive FV where
  | fin : ℚ → FV
  | pinf : FV
  | ninf : FV
  | nan : FV
deriving DecidableEq, Repr

/-- Float addition on `FV` (IEEE semantics on the special values;
finite arithmetic taken exact). -/
def fvAdd : FV → FV → FV
  | FV.fin a, FV.fin b => FV.fin (a + b)
  | FV.nan, _ => FV.nan
  | _, FV.nan => FV.nan
  | FV.pinf, FV.ninf => FV.nan
  | FV.ninf, FV.pinf => FV.nan
  | FV.pinf, _ => FV.pinf
  | _, FV.pinf => FV.pinf
  | FV.ninf, _ => FV.ninf
  | _, FV.ninf => FV.ninf

/-- Float subtraction on `FV`. -/
def fvSub : FV → FV → FV
  | FV.fin a, FV.fin b => FV.fin (a - b)
  | FV.nan, _ => FV.nan
  | _, FV.nan => FV.nan
  | FV.pinf, FV.pinf => FV.nan
  | FV.ninf, FV.ninf => FV.nan
  | FV.pinf, _ => FV.pinf
  | _, FV.pinf => FV.ninf
  | FV.ninf, _ => FV.ninf
  | _, FV.ninf => FV.pinf

/-- Float multiplication on `FV`. -/
def fvMul : FV → FV → FV
  | FV.fin a, FV.fin b => FV.fin (a * b)
  | FV.nan, _ => FV.nan
  | _, FV.nan => FV.nan
  | FV.pinf, FV.pinf => FV.pinf
  | FV.ninf, FV.ninf => FV.pinf
  | FV.pinf, FV.ninf => FV.ninf
  | FV.ninf, FV.pinf => FV.ninf
  | FV.pinf, FV.fin a => if a = 0 then FV.nan else if 0 < a then FV.pinf else FV.ninf
  | FV.fin a, FV.pinf => if a = 0 then FV.nan else if 0 < a then FV.pinf else FV.ninf
  | FV.ninf, FV.fin a => if a = 0 then FV.nan else if 0 < a then FV.ninf else FV.pinf
  | FV.fin a, FV.ninf => if a = 0 then FV.nan else if 0 < a then FV.ninf else FV.pinf

/-- Float division on `FV`.  numpy float division by zero yields
`±inf` (warning, no exception), and `0/0` yields NaN; the model's finite
zero corresponds to IEEE `+0.0`. -/
def fvDiv : FV → FV → FV
  | FV.fin a, FV.fin b =>
    if b = 0 then (if a = 0 then FV.nan else if 0 < a then FV.pinf else FV.ninf)
    else FV.fin (a / b)
  | FV.nan, _ => FV.nan
  | _, FV.nan => FV.nan
  | FV.pinf, FV.pinf => FV.nan
  | FV.pinf, FV.ninf => FV.nan
  | FV.ninf, FV.pinf => FV.nan
  | FV.ninf, FV.ninf => FV.nan
  | FV.pinf, FV.fin b => if 0 ≤ b then FV.pinf else FV.ninf
  | FV.ninf, FV.fin b => if 0 ≤ b then FV.ninf else FV.pinf
  | FV.fin _, FV.pinf => FV.fin 0
  | FV.fin _, FV.ninf => FV.fin 0

/-- IEEE strict greater-than on `FV`: every comparison involving NaN is
false. -/
def fvGt : FV → FV → Bool
  | FV.nan, _ => false
  | _, FV.nan => false
  | FV.fin a, FV.fin b => decide (b < a)
  | FV.pinf, FV.pinf => false
  | FV.pinf, _ => true
  | _, FV.pinf => false
  | FV.ninf, _ => false
  | FV.fin _, FV.ninf => true

/-- `acdc_calc`'s DC correction `adj_dc = vdc_atual*(1 + (Yac - Ydc)/(n_Y*Ydc))`
evaluated in float semantics. -/
def adj_dc_fv (Yac Ydc n_Y vdc_atual : FV) : FV :=
  fvMul vdc_atual (fvAdd (FV.fin 1) (fvDiv (fvSub Yac Ydc) (fvMul n_Y Ydc)))

/-- The DC safety check of `main`'s sampling loop,
`vdc_atual > 1.1*vdc_nominal`, in float semantics (the nominal DC voltage
from the configuration is a finite value). -/
def dc_check_fv (vdc_atual : FV) (vdc_nominal : ℚ) : Bool :=
  fvGt vdc_atual (FV.fin (11/10 * vdc_nominal))

/-- C1: for every cycle of 5 standard readings and 5 device readings,
every coefficient pair `(n_X, n_Y)` and every applied DC voltage `v` with
`n_X`, `n_Y`, `mean(x[1],x[3])` and `mean(y[1],y[3])` nonzero,
`acdc_calc` returns `dif = 1e6*((X/n_X - Y/n_Y)/(1 + Y/n_Y))` with
`X = mean(x[0],x[2],x[4])/mean(x[1],x[3]) - 1` and
`Y = mean(y[0],y[2],y[4])/mean(y[1],y[3]) - 1`, returns
`Delta = 1e6*(Yac - Ydc)`, and returns
`adj_dc = v*(1 + (Yac - Ydc)/(n_Y*Ydc))` with
`Yac = mean(y[0],y[2],y[4])`, `Ydc = mean(y[1],y[3])`. -/
theorem c1_acdc_calc_formulas
    (x0 x1 x2 x3 x4 y0 y1 y2 y3 y4 n_X sX n_Y sY v : ℚ) (ev : List Event)
    (hnX : n_X ≠ 0) (hnY : n_Y ≠ 0)
    (hXdc : (x1 + x3) / 2 ≠ 0) (hYdc : (y1 + y3) / 2 ≠ 0) :
    (acdc_calc ⟨[x0, x1, x2, x3, x4], [y0, y1, y2, y3, y4], ev⟩
        ⟨n_X, sX, n_Y, sY⟩ v).dif =
      1000000 * ((((x0 + x2 + x4) / 3 / ((x1 + x3) / 2) - 1) / n_X -
                  ((y0 + y2 + y4) / 3 / ((y1 + y3) / 2) - 1) / n_Y) /
                 (1 + ((y0 + y2 + y4) / 3 / ((y1 + y3) / 2) - 1) / n_Y)) ∧
    (acdc_calc ⟨[x0, x1, x2, x3, x4], [y0, y1, y2, y3, y4], ev⟩
        ⟨n_X, sX, n_Y, sY⟩ v).Dlt =
      1000000 * ((y0 + y2 + y4) / 3 - (y1 + y3) / 2) ∧
    (acdc_calc ⟨[x0, x1, x2, x3, x4], [y0, y1, y2, y3, y4], ev⟩
        ⟨n_X, sX, n_Y, sY⟩ v).adj_dc =
      v * (1 + ((y0 + y2 + y4) / 3 - (y1 + y3) / 2) / (n_Y * ((y1 + y3) / 2))) := by
  refine ⟨?_, ?_, ?_⟩ <;>
  · simp only [acdc_calc, numpy_mean, List.getD_cons_zero, List.getD_cons_succ,
      List.sum_cons, List.sum_nil, List.length_cons, List.length_nil]
    push_cast
    ring

/-- Witness for C1 at a concrete cycle: all readings 1, `n_X = n_Y = 1`,
`v = 10`. -/
theorem c1_acdc_calc_formulas_witness :
    (acdc_calc ⟨[1, 1, 1, 1, 1], [1, 1, 1, 1, 1], []⟩ ⟨1, 0, 1, 0⟩ 10).dif =
      1000000 * ((((1 + 1 + 1) / 3 / ((1 + 1) / 2) - 1) / 1 -
                  ((1 + 1 + 1) / 3 / ((1 + 1) / 2) - 1) / 1) /
                 (1 + ((1 + 1 + 1) / 3 / ((1 + 1) / 2) - 1) / 1)) ∧
    (acdc_calc ⟨[1, 1, 1, 1, 1], [1, 1, 1, 1, 1], []⟩ ⟨1, 0, 1, 0⟩ 10).Dlt =
      1000000 * ((1 + 1 + 1) / 3 - (1 + 1) / 2) ∧
    (acdc_calc ⟨[1, 1, 1, 1, 1], [1, 1, 1, 1, 1], []⟩ ⟨1, 0, 1, 0⟩ 10).adj_dc =
      10 * (1 + ((1 + 1 + 1) / 3 - (1 + 1) / 2) / (1 * ((1 + 1) / 2))) :=
  c1_acdc_calc_formulas 1 1 1 1 1 1 1 1 1 1 1 0 1 0 10 []
    (by norm_num) (by norm_num) (by norm_num) (by norm_num)

/-- The phase-4 standard reading of a cycle is always the fresh phase-4
reading, carry-over or not. -/
theorem measure_acdc_std4 (v a : ℚ) (c : Option (ℚ × ℚ)) (f : ℕ → ℚ × ℚ) (w : ℚ) :
    (measure_acdc v a c f w).std_readings.getD 4 0 = (f 4).1 := by
  rcases c with _ | ⟨p, q⟩ <;> simp [measure_acdc]

/-- The phase-4 device reading of a cycle is always the fresh phase-4
reading, carry-over or not. -/
theorem measure_acdc_dut4 (v a : ℚ) (c : Option (ℚ × ℚ)) (f : ℕ → ℚ × ℚ) (w : ℚ) :
    (measure_acdc v a c f w).dut_readings.getD 4 0 = (f 4).2 := by
  rcases c with _ | ⟨p, q⟩ <;> simp [measure_acdc]

/-- C2: in every sampling-loop iteration whose computed `|Delta|` exceeds
50, the repetition is discarded — the accepted count `i` is not
incremented, no record row is persisted, the difference is not appended
to the accepted list — yet the applied DC voltage is still replaced by
the cycle's `adj_dc` and the cycle's trailing phase-4 AC reading pair is
still carried forward as the next repetition's leading AC phase. -/
theorem c2_outlier_discard (cfg : MeasConfig) (nv : NResults) (vac : ℚ)
    (s : LoopState) (fresh : ℕ → ℚ × ℚ)
    (h : |(acdc_calc (measure_acdc s.vdc_atual vac s.ciclo_ac fresh cfg.wait_time)
            nv s.vdc_atual).Dlt| > 50) :
    (loop_iter cfg nv vac s fresh).1.i = s.i ∧
    (loop_iter cfg nv vac s fresh).1.recs = s.recs ∧
    (loop_iter cfg nv vac s fresh).1.diff_acdc = s.diff_acdc ∧
    (loop_iter cfg nv vac s fresh).1.vdc_atual =
      (acdc_calc (measure_acdc s.vdc_atual vac s.ciclo_ac fresh cfg.wait_time)
        nv s.vdc_atual).adj_dc ∧
    (loop_iter cfg nv vac s fresh).1.ciclo_ac = some ((fresh 4).1, (fresh 4).2) := by
  simp only [loop_iter, measure_acdc_std4, measure_acdc_dut4]
  simp [h]

/-- Witness for C2: a concrete cycle whose device AC/DC imbalance gives
`Delta = 1e6`, so the repetition is discarded but the DC correction and
carry-over still happen. -/
theorem c2_outlier_discard_witness :
    (loop_iter ⟨10, 10, 1, 1⟩ ⟨1, 0, 1, 0⟩ 10 (initLoopState ⟨10, 10, 1, 1⟩)
        (fun p => if p % 2 = 0 then (1, 2) else (1, 1))).1.i =
      (initLoopState ⟨10, 10, 1, 1⟩).i ∧
    (loop_iter ⟨10, 10, 1, 1⟩ ⟨1, 0, 1, 0⟩ 10 (initLoopState ⟨10, 10, 1, 1⟩)
        (fun p => if p % 2 = 0 then (1, 2) else (1, 1))).1.recs =
      (initLoopState ⟨10, 10, 1, 1⟩).recs ∧
    (loop_iter ⟨10, 10, 1, 1⟩ ⟨1, 0, 1, 0⟩ 10 (initLoopState ⟨10, 10, 1, 1⟩)
        (fun p => if p % 2 = 0 then (1, 2) else (1, 1))).1.diff_acdc =
      (initLoopState ⟨10, 10, 1, 1⟩).diff_acdc ∧
    (loop_iter ⟨10, 10, 1, 1⟩ ⟨1, 0, 1, 0⟩ 10 (initLoopState ⟨10, 10, 1, 1⟩)
        (fun p => if p % 2 = 0 then (1, 2) else (1, 1))).1.vdc_atual =
      (acdc_calc (measure_acdc (initLoopState ⟨10, 10, 1, 1⟩).vdc_atual 10
          (initLoopState ⟨10, 10, 1, 1⟩).ciclo_ac
          (fun p => if p % 2 = 0 then (1, 2) else (1, 1)) 1)
        ⟨1, 0, 1, 0⟩ (initLoopState ⟨10, 10, 1, 1⟩).vdc_atual).adj_dc ∧
    (loop_iter ⟨10, 10, 1, 1⟩ ⟨1, 0, 1, 0⟩ 10 (initLoopState ⟨10, 10, 1, 1⟩)
        (fun p => if p % 2 = 0 then (1, 2) else (1, 1))).1.ciclo_ac =
      some ((if 4 % 2 = 0 then ((1 : ℚ), (2 : ℚ)) else (1, 1)).1,
            (if 4 % 2 = 0 then ((1 : ℚ), (2 : ℚ)) else (1, 1)).2) :=
  c2_outlier_discard ⟨10, 10, 1, 1⟩ ⟨1, 0, 1, 0⟩ 10 (initLoopState ⟨10, 10, 1, 1⟩)
    (fun p => if p % 2 = 0 then (1, 2) else (1, 1))
    (by norm_num [acdc_calc, measure_acdc, numpy_mean, initLoopState])

/-- The abort flag of one loop iteration is exactly the DC safety
comparison on the just-assigned corrected DC voltage. -/
theorem loop_iter_abort_flag (cfg : MeasConfig) (nv : NResults) (vac : ℚ)
    (s : LoopState) (fresh : ℕ → ℚ × ℚ) :
    (loop_iter cfg nv vac s fresh).2 =
      decide ((loop_iter cfg nv vac s fresh).1.vdc_atual > 11/10 * cfg.vdc_nominal) := rfl

/-- If the sampling loop aborts, the state at the raise carries a
corrected DC voltage strictly above `1.1 * vdc_nominal`. -/
theorem run_loop_aborted_vdc (cfg : MeasConfig) (nv : NResults) (vac : ℚ)
    (reads : ℕ → ℕ → ℚ × ℚ) :
    ∀ (fuel c : ℕ) (s s' : LoopState),
      run_loop cfg nv vac reads fuel c s = LoopRes.aborted s' →
      s'.vdc_atual > 11/10 * cfg.vdc_nominal := by
  intro fuel
  induction fuel with
  | zero =>
    intro c s s' h
    rw [run_loop] at h
    by_cases hi : s.i ≥ cfg.repeticoes <;> simp [hi] at h
  | succ n ih =>
    intro c s s' h
    rw [run_loop] at h
    by_cases hi : s.i ≥ cfg.repeticoes
    · simp [hi] at h
    · simp only [hi, if_false] at h
      by_cases hb : (loop_iter cfg nv vac s (reads c)).2
      · simp only [hb, if_true] at h
        have hv := loop_iter_abort_flag cfg nv vac s (reads c)
        rw [hb] at hv
        have := of_decide_eq_true hv.symm
        cases h
        exact this
      · simp only [hb, if_false] at h
        exact ih (c + 1) (loop_iter cfg nv vac s (reads c)).1 s' h

/-- C3: whenever the equilibrium AC voltage exceeds `1.1 * vac_nominal`,
or the sampling loop raises because a corrected DC voltage was assigned
(in which case that voltage indeed exceeds `1.1 * vdc_nominal` — first
conjunct), the frequency point ends in one of the two raised safety
errors, the run processes no later frequency point (running with extra
points appended gives the identical result), and the safe-shutdown
procedure runs before termination. -/
theorem c3_safety_bound_halts (cfg : MeasConfig) (env : FreqEnv)
    (rest : List FreqEnv) (s : LoopState)
    (h : freq_vac cfg env > 11/10 * cfg.vac_nominal ∨
         freq_loop cfg env = LoopRes.aborted s) :
    (freq_vac cfg env > 11/10 * cfg.vac_nominal ∨
      s.vdc_atual > 11/10 * cfg.vdc_nominal) ∧
    (freqPoint cfg env = PointResult.err MainError.acHigh ∨
      freqPoint cfg env = PointResult.err MainError.dcHigh) ∧
    runPts cfg (env :: rest) = runPts cfg [env] ∧
    shutdownRan (runPts cfg (env :: rest)) = true := by
  have herr : freqPoint cfg env = PointResult.err MainError.acHigh ∨
      freqPoint cfg env = PointResult.err MainError.dcHigh := by
    rcases h with h | h
    · exact Or.inl (by simp [freqPoint, h])
    · by_cases hv : freq_vac cfg env > 11/10 * cfg.vac_nominal
      · exact Or.inl (by simp [freqPoint, hv])
      · exact Or.inr (by simp [freqPoint, hv, h])
  have hbound : freq_vac cfg env > 11/10 * cfg.vac_nominal ∨
      s.vdc_atual > 11/10 * cfg.vdc_nominal := by
    rcases h with h | h
    · exact Or.inl h
    · exact Or.inr (run_loop_aborted_vdc cfg (freq_n cfg env) (freq_vac cfg env)
        env.cycleReads env.fuel 0 (initLoopState cfg) s h)
  refine ⟨hbound, herr, ?_, ?_⟩ <;> rcases herr with he | he <;>
    simp [runPts, he, shutdownRan]

/-- Concrete configuration for the C3 witness. -/
def c3cfg : MeasConfig := ⟨10, 10, 1, 1⟩

/-- Concrete frequency-point environment for the C3 witness: linearity
readings giving `n = 1` on both channels, equilibrium readings giving
`vac = 9.99`, and a cycle whose device imbalance drives the DC correction
to 20 V, past the 11 V bound. -/
def c3env : FreqEnv :=
  { nReads := fun j => if j = 0 then (1, 1)
      else if j % 2 = 1 then (101/100, 101/100) else (99/100, 99/100)
    eqReads := fun _ => 1
    cycleReads := fun _ p => if p % 2 = 0 then (1, 2) else (1, 1)
    fuel := 1 }

/-- Witness for C3: at the concrete environment the loop aborts with
corrected DC 20 V > 11 V, the point raises `dcHigh`, a second pending
frequency point is abandoned, and shutdown runs. -/
theorem c3_safety_bound_halts_witness :
    (freq_vac c3cfg c3env > 11/10 * c3cfg.vac_nominal ∨
      (⟨0, [], [], [], 20, some (1, 2)⟩ : LoopState).vdc_atual >
        11/10 * c3cfg.vdc_nominal) ∧
    (freqPoint c3cfg c3env = PointResult.err MainError.acHigh ∨
      freqPoint c3cfg c3env = PointResult.err MainError.dcHigh) ∧
    runPts c3cfg (c3env :: [c3env]) = runPts c3cfg [c3env] ∧
    shutdownRan (runPts c3cfg (c3env :: [c3env])) = true :=
  c3_safety_bound_halts c3cfg c3env [c3env] ⟨0, [], [], [], 20, some (1, 2)⟩
    (Or.inr (by
      have hr : List.range 4 = [0, 1, 2, 3] := rfl
      have hn : freq_n c3cfg c3env = ⟨1, 0, 1, 0⟩ := by
        norm_num [freq_n, n_measure_calc, numpy_mean, numpy_var1, c3env, c3cfg, hr]
      have hv : freq_vac c3cfg c3env = 999/100 := by
        norm_num [freq_vac, equilibrio_calc, numpy_interp2, c3env, c3cfg]
      rw [freq_loop, hn, hv]
      norm_num [run_loop, loop_iter, measure_acdc, acdc_calc, numpy_mean,
        initLoopState, c3env, c3cfg]))

/-- C4 counterexample: with `vac_nominal = 10` and readings
`xi = 3, xp = [1, 2]` (target outside the bracket), the source returns
the clamped endpoint `1.001 * 10 = 10.01`, not the linear extrapolation
`10.03` of the line through the two bracket points: `numpy.interp` does
not extrapolate, so the claim as stated is false. -/
theorem c4_equilibrio_counterexample :
    equilibrio_calc 10 (fun j => if j = 0 then 3 else if j = 1 then 1 else 2) =
      1001/100 ∧
    lineThrough 1 (999/1000 * 10) 2 (1001/1000 * 10) 3 = 1003/100 ∧
    (1001/100 : ℚ) ≠ 1003/100 := by
  norm_num [equilibrio_calc, numpy_interp2, lineThrough]

/-- C4 amended: `equilibrio` returns `numpy.interp` of the target reading
`xi = r 0` against `xp = [r 1, r 2]`, `yp = [0.999*vac_nominal,
1.001*vac_nominal]`: the linear interpolation of the line through the two
bracket points when `xi` lies strictly inside `(xp[0], xp[1])`, and for
`xi` outside the bracket the corresponding endpoint of `yp`, silently
clamped with no guard — never the extrapolated line value. -/
theorem c4_equilibrio_clamps (v : ℚ) (r : ℕ → ℚ) :
    equilibrio_calc v r =
      if r 0 ≤ r 1 then 999/1000 * v
      else if r 2 ≤ r 0 then 1001/1000 * v
      else lineThrough (r 1) (999/1000 * v) (r 2) (1001/1000 * v) (r 0) := by
  simp [equilibrio_calc, numpy_interp2, lineThrough]

/-- C5: for every positive requested count `M`, `n_measure` performs
exactly `M` perturbation iterations when `M` is even and `M + 1` when `M`
is odd (the count is even and at least the request), the sign weight `k`
is `+100` on odd iterations and `-100` on even iterations, and the
programmed perturbation voltage is `+1%` of nominal DC on odd iterations
and `-1%` on even ones (iteration `i = j + 1` at list index `j`). -/
theorem c5_n_measure_parity (M : ℕ) (v : ℚ) (reads : ℕ → ℚ × ℚ) (h : 0 < M) :
    (n_measure_calc M v reads).k.length = (if M % 2 = 1 then M + 1 else M) ∧
    Even (n_measure_calc M v reads).k.length ∧
    M ≤ (n_measure_calc M v reads).k.length ∧
    (∀ j, j < (n_measure_calc M v reads).k.length →
      (n_measure_calc M v reads).k.getD j 0 =
        if (j + 1) % 2 = 0 then -100 else 100) ∧
    (∀ j, j < (n_measure_calc M v reads).vi.length →
      (n_measure_calc M v reads).vi.getD j 0 =
        if (j + 1) % 2 = 0 then 99/100 * v else 101/100 * v) := by
  have hk : (n_measure_calc M v reads).k =
      (List.range (if M % 2 = 1 then M + 1 else M)).map
        (fun j => if (j + 1) % 2 = 0 then (-100 : ℚ) else 100) := by
    simp only [n_measure_calc, Nat.mod_two_ne_zero]
  have hvi : (n_measure_calc M v reads).vi =
      (List.range (if M % 2 = 1 then M + 1 else M)).map
        (fun j => if (j + 1) % 2 = 0 then 99/100 * v else 101/100 * v) := by
    simp only [n_measure_calc, Nat.mod_two_ne_zero]
  refine ⟨?_, ?_, ?_, ?_, ?_⟩
  · rw [hk]; simp
  · rw [hk]
    simp only [List.length_map, List.length_range]
    rcases Nat.mod_two_eq_zero_or_one M with h2 | h2 <;>
      simp [h2, Nat.even_iff, Nat.succ_mod_two_eq_zero_iff]
  · rw [hk]
    simp only [List.length_map, List.length_range]
    split <;> omega
  · intro j hj
    rw [hk] at hj ⊢
    simp only [List.length_map, List.length_range] at hj
    simp [List.getD_eq_getElem?_getD, List.getElem?_map, List.getElem?_range hj]
  · intro j hj
    rw [hvi] at hj ⊢
    simp only [List.length_map, List.length_range] at hj
    simp [List.getD_eq_getElem?_getD, List.getElem?_map, List.getElem?_range hj]

/-- Witness for C5 with the odd request `M = 3`: four iterations are
performed. -/
theorem c5_n_measure_parity_witness :
    (n_measure_calc 3 10 (fun _ => (1, 1))).k.length =
      (if 3 % 2 = 1 then 3 + 1 else 3) ∧
    Even (n_measure_calc 3 10 (fun _ => (1, 1))).k.length ∧
    3 ≤ (n_measure_calc 3 10 (fun _ => (1, 1))).k.length ∧
    (∀ j, j < (n_measure_calc 3 10 (fun _ => (1, 1))).k.length →
      (n_measure_calc 3 10 (fun _ => (1, 1))).k.getD j 0 =
        if (j + 1) % 2 = 0 then -100 else 100) ∧
    (∀ j, j < (n_measure_calc 3 10 (fun _ => (1, 1))).vi.length →
      (n_measure_calc 3 10 (fun _ => (1, 1))).vi.getD j 0 =
        if (j + 1) % 2 = 0 then 99/100 * 10 else 101/100 * 10) :=
  c5_n_measure_parity 3 10 (fun _ => (1, 1)) (by norm_num)

/-- The unbiased-variance radicand of a constant nonempty list is exactly
zero. -/
theorem numpy_var1_const (l : List ℚ) (c : ℚ) (hne : l ≠ []) (h : ∀ d ∈ l, d = c) :
    numpy_var1 l = 0 := by
  have hrep : l = List.replicate l.length c := List.eq_replicate_of_mem h
  have hlen : (l.length : ℚ) ≠ 0 := by
    exact_mod_cast fun hc => hne (List.length_eq_zero.mp (by exact_mod_cast hc))
  have hsum : l.sum = l.length * c := by
    conv_lhs => rw [hrep]
    simp [List.sum_replicate, nsmul_eq_mul]
  have hmean : numpy_mean l = c := by
    rw [numpy_mean, hsum]
    exact mul_div_cancel_left₀ c hlen
  have hmap : l.map (fun a => (a - numpy_mean l) ^ 2) = List.replicate l.length 0 := by
    rw [hmean]
    conv_lhs => rw [hrep]
    simp
  rw [numpy_var1, hmap]
  simp

/-- C6: for every positive request `M`, `n_measure` computes the
per-channel deviation sequences elementwise as `(Xi/X0 - 1)*k` and
`(Yi/Y0 - 1)*k` over the post-baseline readings, the returned
coefficients are the sample mean and (the radicand of) the unbiased
ddof=1 sample standard deviation of those sequences, and for a constant
deviation sequence the returned standard deviation is exactly 0 (its
radicand is 0). -/
theorem c6_n_measure_stats (M : ℕ) (v : ℚ) (reads : ℕ → ℚ × ℚ) (hM : 0 < M) :
    (∀ j, j < (n_measure_calc M v reads).nX.length →
      (n_measure_calc M v reads).nX.getD j 0 =
        ((n_measure_calc M v reads).Xi.getD j 0 / (n_measure_calc M v reads).X0 - 1) *
          (n_measure_calc M v reads).k.getD j 0) ∧
    (∀ j, j < (n_measure_calc M v reads).nY.length →
      (n_measure_calc M v reads).nY.getD j 0 =
        ((n_measure_calc M v reads).Yi.getD j 0 / (n_measure_calc M v reads).Y0 - 1) *
          (n_measure_calc M v reads).k.getD j 0) ∧
    (n_measure_calc M v reads).results.nX_mean =
      (n_measure_calc M v reads).nX.sum / (n_measure_calc M v reads).nX.length ∧
    (n_measure_calc M v reads).results.nY_mean =
      (n_measure_calc M v reads).nY.sum / (n_measure_calc M v reads).nY.length ∧
    (n_measure_calc M v reads).results.nX_var =
      ((n_measure_calc M v reads).nX.map
        (fun a => (a - (n_measure_calc M v reads).nX.sum /
          (n_measure_calc M v reads).nX.length) ^ 2)).sum /
        ((n_measure_calc M v reads).nX.length - 1) ∧
    (n_measure_calc M v reads).results.nY_var =
      ((n_measure_calc M v reads).nY.map
        (fun a => (a - (n_measure_calc M v reads).nY.sum /
          (n_measure_calc M v reads).nY.length) ^ 2)).sum /
        ((n_measure_calc M v reads).nY.length - 1) ∧
    (∀ c, (∀ d ∈ (n_measure_calc M v reads).nX, d = c) →
      (n_measure_calc M v reads).results.nX_var = 0) ∧
    (∀ c, (∀ d ∈ (n_measure_calc M v reads).nY, d = c) →
      (n_measure_calc M v reads).results.nY_var = 0) := by
  have hlenX : (n_measure_calc M v reads).nX.length =
      (if M % 2 ≠ 0 then M + 1 else M) := by
    simp [n_measure_calc]
  have hlenY : (n_measure_calc M v reads).nY.length =
      (if M % 2 ≠ 0 then M + 1 else M) := by
    simp [n_measure_calc]
  have hneX : (n_measure_calc M v reads).nX ≠ [] := by
    rw [← List.length_pos, hlenX]
    split <;> omega
  have hneY : (n_measure_calc M v reads).nY ≠ [] := by
    rw [← List.length_pos, hlenY]
    split <;> omega
  refine ⟨?_, ?_, rfl, rfl, rfl, rfl, ?_, ?_⟩
  · intro j hj
    simp only [n_measure_calc, List.zipWith_map, List.zipWith_same] at hj ⊢
    simp only [List.length_map, List.length_range, Nat.mod_two_ne_zero] at hj
    simp [List.getD_eq_getElem?_getD, List.getElem?_map, List.getElem?_range hj]
  · intro j hj
    simp only [n_measure_calc, List.zipWith_map, List.zipWith_same] at hj ⊢
    simp only [List.length_map, List.length_range, Nat.mod_two_ne_zero] at hj
    simp [List.getD_eq_getElem?_getD, List.getElem?_map, List.getElem?_range hj]
  · intro c hc
    exact numpy_var1_const _ c hneX hc
  · intro c hc
    exact numpy_var1_const _ c hneY hc

/-- Witness for C6 at `M = 1` with constant readings: the deviation
sequences are constant and the variance radicands are 0. -/
theorem c6_n_measure_stats_witness :
    (∀ j, j < (n_measure_calc 1 10 (fun _ => (1, 1))).nX.length →
      (n_measure_calc 1 10 (fun _ => (1, 1))).nX.getD j 0 =
        ((n_measure_calc 1 10 (fun _ => (1, 1))).Xi.getD j 0 /
          (n_measure_calc 1 10 (fun _ => (1, 1))).X0 - 1) *
          (n_measure_calc 1 10 (fun _ => (1, 1))).k.getD j 0) ∧
    (∀ j, j < (n_measure_calc 1 10 (fun _ => (1, 1))).nY.length →
      (n_measure_calc 1 10 (fun _ => (1, 1))).nY.getD j 0 =
        ((n_measure_calc 1 10 (fun _ => (1, 1))).Yi.getD j 0 /
          (n_measure_calc 1 10 (fun _ => (1, 1))).Y0 - 1) *
          (n_measure_calc 1 10 (fun _ => (1, 1))).k.getD j 0) ∧
    (n_measure_calc 1 10 (fun _ => (1, 1))).results.nX_mean =
      (n_measure_calc 1 10 (fun _ => (1, 1))).nX.sum /
        (n_measure_calc 1 10 (fun _ => (1, 1))).nX.length ∧
    (n_measure_calc 1 10 (fun _ => (1, 1))).results.nY_mean =
      (n_measure_calc 1 10 (fun _ => (1, 1))).nY.sum /
        (n_measure_calc 1 10 (fun _ => (1, 1))).nY.length ∧
    (n_measure_calc 1 10 (fun _ => (1, 1))).results.nX_var =
      ((n_measure_calc 1 10 (fun _ => (1, 1))).nX.map
        (fun a => (a - (n_measure_calc 1 10 (fun _ => (1, 1))).nX.sum /
          (n_measure_calc 1 10 (fun _ => (1, 1))).nX.length) ^ 2)).sum /
        ((n_measure_calc 1 10 (fun _ => (1, 1))).nX.length - 1) ∧
    (n_measure_calc 1 10 (fun _ => (1, 1))).results.nY_var =
      ((n_measure_calc 1 10 (fun _ => (1, 1))).nY.map
        (fun a => (a - (n_measure_calc 1 10 (fun _ => (1, 1))).nY.sum /
          (n_measure_calc 1 10 (fun _ => (1, 1))).nY.length) ^ 2)).sum /
        ((n_measure_calc 1 10 (fun _ => (1, 1))).nY.length - 1) ∧
    (∀ c, (∀ d ∈ (n_measure_calc 1 10 (fun _ => (1, 1))).nX, d = c) →
      (n_measure_calc 1 10 (fun _ => (1, 1))).results.nX_var = 0) ∧
    (∀ c, (∀ d ∈ (n_measure_calc 1 10 (fun _ => (1, 1))).nY, d = c) →
      (n_measure_calc 1 10 (fun _ => (1, 1))).results.nY_var = 0) :=
  c6_n_measure_stats 1 10 (fun _ => (1, 1)) (by norm_num)

/-- Whether an event is a switch routing command. -/
def Event.isRoute : Event → Bool
  | Event.route _ => true
  | _ => false

/-- C7: when a carried-over cycle `(s, d)` is supplied to `measure`, the
returned cycle's phase-0 standard and device readings are exactly `s` and
`d`, the event trace is exactly the source-settling wait followed by the
four routed phases 1–4 (so no routing command, settling wait or detector
read is issued for phase 0, and exactly 4 routing commands occur), and
phases 1–4 are sampled from the detector as usual. -/
theorem c7_carry_over_reuse (vdc vac w s d : ℚ) (fresh : ℕ → ℚ × ℚ) :
    (measure_acdc vdc vac (some (s, d)) fresh w).std_readings.getD 0 0 = s ∧
    (measure_acdc vdc vac (some (s, d)) fresh w).dut_readings.getD 0 0 = d ∧
    (measure_acdc vdc vac (some (s, d)) fresh w).events =
      Event.wait 2 ::
        (phase_events SwMode.dcM w ++ phase_events SwMode.acM w ++
         phase_events SwMode.dcM w ++ phase_events SwMode.acM w) ∧
    ((measure_acdc vdc vac (some (s, d)) fresh w).events.filter Event.isRoute).length
      = 4 ∧
    (measure_acdc vdc vac (some (s, d)) fresh w).std_readings.getD 1 0 = (fresh 1).1 ∧
    (measure_acdc vdc vac (some (s, d)) fresh w).dut_readings.getD 1 0 = (fresh 1).2 ∧
    (measure_acdc vdc vac (some (s, d)) fresh w).std_readings.getD 2 0 = (fresh 2).1 ∧
    (measure_acdc vdc vac (some (s, d)) fresh w).dut_readings.getD 2 0 = (fresh 2).2 ∧
    (measure_acdc vdc vac (some (s, d)) fresh w).std_readings.getD 3 0 = (fresh 3).1 ∧
    (measure_acdc vdc vac (some (s, d)) fresh w).dut_readings.getD 3 0 = (fresh 3).2 ∧
    (measure_acdc vdc vac (some (s, d)) fresh w).std_readings.getD 4 0 = (fresh 4).1 ∧
    (measure_acdc vdc vac (some (s, d)) fresh w).dut_readings.getD 4 0 = (fresh 4).2 := by
  simp [measure_acdc, phase_events, Event.isRoute, List.filter]

/-- Discarded iteration: accepted count, accepted list and records are
unchanged. -/
theorem loop_iter_discard (cfg : MeasConfig) (nv : NResults) (vac : ℚ)
    (s : LoopState) (fresh : ℕ → ℚ × ℚ)
    (h : |(acdc_calc (measure_acdc s.vdc_atual vac s.ciclo_ac fresh cfg.wait_time)
        nv s.vdc_atual).Dlt| > 50) :
    (loop_iter cfg nv vac s fresh).1.i = s.i ∧
    (loop_iter cfg nv vac s fresh).1.diff_acdc = s.diff_acdc ∧
    (loop_iter cfg nv vac s fresh).1.recs = s.recs := by
  simp only [loop_iter]
  simp [h]

/-- Accepted iteration: the difference is appended, one record row with
that difference and this cycle's `Delta` is appended, and the count is
incremented. -/
theorem loop_iter_accept (cfg : MeasConfig) (nv : NResults) (vac : ℚ)
    (s : LoopState) (fresh : ℕ → ℚ × ℚ)
    (h : ¬(|(acdc_calc (measure_acdc s.vdc_atual vac s.ciclo_ac fresh cfg.wait_time)
        nv s.vdc_atual).Dlt| > 50)) :
    (loop_iter cfg nv vac s fresh).1.i = s.i + 1 ∧
    (loop_iter cfg nv vac s fresh).1.diff_acdc = s.diff_acdc ++
      [(acdc_calc (measure_acdc s.vdc_atual vac s.ciclo_ac fresh cfg.wait_time)
        nv s.vdc_atual).dif] ∧
    (loop_iter cfg nv vac s fresh).1.recs = s.recs ++
      [{ std_readings :=
           (measure_acdc s.vdc_atual vac s.ciclo_ac fresh cfg.wait_time).std_readings
         dut_readings :=
           (measure_acdc s.vdc_atual vac s.ciclo_ac fresh cfg.wait_time).dut_readings
         dif := (acdc_calc (measure_acdc s.vdc_atual vac s.ciclo_ac fresh
           cfg.wait_time) nv s.vdc_atual).dif
         Dlt := (acdc_calc (measure_acdc s.vdc_atual vac s.ciclo_ac fresh
           cfg.wait_time) nv s.vdc_atual).Dlt
         vdc := s.vdc_atual }] := by
  simp only [loop_iter]
  simp [h]

/-- Invariant of the sampling loop: the accepted-difference list is
exactly the record rows' difference column, the accepted count is the
number of records, every record passed the outlier gate, and on normal
completion the count equals the repetition target. -/
theorem run_loop_inv (cfg : MeasConfig) (nv : NResults) (vac : ℚ)
    (reads : ℕ → ℕ → ℚ × ℚ) :
    ∀ (fuel c : ℕ) (s s' : LoopState),
      run_loop cfg nv vac reads fuel c s = LoopRes.finished s' →
      s.diff_acdc = s.recs.map MeasRecord.dif →
      s.i = s.recs.length →
      s.i ≤ cfg.repeticoes →
      (∀ r ∈ s.recs, |r.Dlt| ≤ 50) →
      s'.diff_acdc = s'.recs.map MeasRecord.dif ∧
      s'.i = s'.recs.length ∧ s'.i = cfg.repeticoes ∧
      (∀ r ∈ s'.recs, |r.Dlt| ≤ 50) := by
  intro fuel
  induction fuel with
  | zero =>
    intro c s s' h h1 h2 h3 h4
    rw [run_loop] at h
    by_cases hi : s.i ≥ cfg.repeticoes
    · simp only [hi, if_true] at h
      cases h
      exact ⟨h1, h2, le_antisymm h3 hi, h4⟩
    · simp [hi] at h
  | succ n ih =>
    intro c s s' h h1 h2 h3 h4
    rw [run_loop] at h
    by_cases hi : s.i ≥ cfg.repeticoes
    · simp only [hi, if_true] at h
      cases h
      exact ⟨h1, h2, le_antisymm h3 hi, h4⟩
    · simp only [hi, if_false] at h
      by_cases hb : (loop_iter cfg nv vac s (reads c)).2
      · simp [hb] at h
      · simp only [Bool.not_eq_true] at hb
        simp only [hb, Bool.false_eq_true, if_false] at h
        by_cases hd : |(acdc_calc (measure_acdc s.vdc_atual vac s.ciclo_ac
            (reads c) cfg.wait_time) nv s.vdc_atual).Dlt| > 50
        · obtain ⟨e1, e2, e3⟩ := loop_iter_discard cfg nv vac s (reads c) hd
          exact ih (c + 1) _ s' h (by rw [e2, e3, h1]) (by rw [e1, e3, h2])
            (by rw [e1]; exact h3) (by rw [e3]; exact h4)
        · obtain ⟨e1, e2, e3⟩ := loop_iter_accept cfg nv vac s (reads c) hd
          refine ih (c + 1) _ s' h ?_ ?_ ?_ ?_
          · simp [e2, e3, h1]
          · simp [e1, e3, h2]
          · rw [e1]
            omega
          · rw [e3]
            intro r hr
            rcases List.mem_append.mp hr with hr | hr
            · exact h4 r hr
            · simp only [List.mem_singleton] at hr
              subst hr
              exact not_lt.mp hd

/-- C8: for every frequency point whose sampling loop completes its
repetition target, the `registro_media` summary is the sample mean and
(the radicand of) the unbiased ddof=1 sample standard deviation of
exactly the accepted differences, which are the difference column of the
persisted records in acceptance order; every accepted record passed the
outlier gate, and the accepted count equals the repetition target, so
discarded repetitions contribute nothing. -/
theorem c8_summary_accepted (cfg : MeasConfig) (nv : NResults) (vac : ℚ)
    (reads : ℕ → ℕ → ℚ × ℚ) (fuel : ℕ) (s' : LoopState)
    (h : run_loop cfg nv vac reads fuel 0 (initLoopState cfg) =
      LoopRes.finished s') :
    registro_media_summary s'.diff_acdc =
      (s'.diff_acdc.sum / s'.diff_acdc.length,
       (s'.diff_acdc.map (fun a => (a - s'.diff_acdc.sum /
         s'.diff_acdc.length) ^ 2)).sum / ((s'.diff_acdc.length : ℚ) - 1)) ∧
    s'.diff_acdc = s'.recs.map MeasRecord.dif ∧
    (∀ r ∈ s'.recs, |r.Dlt| ≤ 50) ∧
    s'.recs.length = cfg.repeticoes ∧
    s'.diff_acdc.length = cfg.repeticoes := by
  obtain ⟨h1, h2, h3, h4⟩ := run_loop_inv cfg nv vac reads fuel 0
    (initLoopState cfg) s' h (by simp [initLoopState]) (by simp [initLoopState])
    (by simp [initLoopState]) (by simp [initLoopState])
  refine ⟨rfl, h1, h4, ?_, ?_⟩
  · omega
  · rw [h1, List.length_map]
    omega

/-- Witness for C8: a completed one-repetition run with all readings 1
(every cycle accepted with difference 0). -/
theorem c8_summary_accepted_witness :
    registro_media_summary
      (⟨1, [0], [0], [⟨[1, 1, 1, 1, 1], [1, 1, 1, 1, 1], 0, 0, 10⟩], 10,
        some (1, 1)⟩ : LoopState).diff_acdc =
      ((⟨1, [0], [0], [⟨[1, 1, 1, 1, 1], [1, 1, 1, 1, 1], 0, 0, 10⟩], 10,
        some (1, 1)⟩ : LoopState).diff_acdc.sum /
        (⟨1, [0], [0], [⟨[1, 1, 1, 1, 1], [1, 1, 1, 1, 1], 0, 0, 10⟩], 10,
          some (1, 1)⟩ : LoopState).diff_acdc.length,
       ((⟨1, [0], [0], [⟨[1, 1, 1, 1, 1], [1, 1, 1, 1, 1], 0, 0, 10⟩], 10,
          some (1, 1)⟩ : LoopState).diff_acdc.map
         (fun a => (a - (⟨1, [0], [0], [⟨[1, 1, 1, 1, 1], [1, 1, 1, 1, 1], 0, 0, 10⟩],
           10, some (1, 1)⟩ : LoopState).diff_acdc.sum /
           (⟨1, [0], [0], [⟨[1, 1, 1, 1, 1], [1, 1, 1, 1, 1], 0, 0, 10⟩], 10,
             some (1, 1)⟩ : LoopState).diff_acdc.length) ^ 2)).sum /
        (((⟨1, [0], [0], [⟨[1, 1, 1, 1, 1], [1, 1, 1, 1, 1], 0, 0, 10⟩], 10,
          some (1, 1)⟩ : LoopState).diff_acdc.length : ℚ) - 1)) ∧
    (⟨1, [0], [0], [⟨[1, 1, 1, 1, 1], [1, 1, 1, 1, 1], 0, 0, 10⟩], 10,
      some (1, 1)⟩ : LoopState).diff_acdc =
      (⟨1, [0], [0], [⟨[1, 1, 1, 1, 1], [1, 1, 1, 1, 1], 0, 0, 10⟩], 10,
        some (1, 1)⟩ : LoopState).recs.map MeasRecord.dif ∧
    (∀ r ∈ (⟨1, [0], [0], [⟨[1, 1, 1, 1, 1], [1, 1, 1, 1, 1], 0, 0, 10⟩], 10,
      some (1, 1)⟩ : LoopState).recs, |r.Dlt| ≤ 50) ∧
    (⟨1, [0], [0], [⟨[1, 1, 1, 1, 1], [1, 1, 1, 1, 1], 0, 0, 10⟩], 10,
      some (1, 1)⟩ : LoopState).recs.length = MeasConfig.repeticoes ⟨10, 10, 1, 1⟩ ∧
    (⟨1, [0], [0], [⟨[1, 1, 1, 1, 1], [1, 1, 1, 1, 1], 0, 0, 10⟩], 10,
      some (1, 1)⟩ : LoopState).diff_acdc.length = MeasConfig.repeticoes ⟨10, 10, 1, 1⟩ :=
  c8_summary_accepted ⟨10, 10, 1, 1⟩ ⟨1, 0, 1, 0⟩ 10 (fun _ _ => (1, 1)) 2
    ⟨1, [0], [0], [⟨[1, 1, 1, 1, 1], [1, 1, 1, 1, 1], 0, 0, 10⟩], 10, some (1, 1)⟩
    (by norm_num [run_loop, loop_iter, measure_acdc, acdc_calc, numpy_mean,
      initLoopState, phase_events])

/-- Whether a frequency point completed normally. -/
def PointResult.isOk : PointResult → Bool
  | PointResult.ok _ => true
  | _ => false

/-- Concrete configuration for the C9 counterexample. -/
def c9cfg : MeasConfig := ⟨10, 10, 1, 1⟩

/-- Concrete environment for the C9 counterexample: every linearity
reading is 0, so the baseline `X0 = Y0 = 0` makes `Xi/X0` and `Yi/Y0`
divisions by zero — in the source's numpy float arithmetic both channels'
linearity means are non-finite (NaN).  The remaining readings are benign
(equilibrium 1, cycle readings 1). -/
def c9env : FreqEnv :=
  { nReads := fun _ => (0, 0)
    eqReads := fun _ => 1
    cycleReads := fun _ _ => (1, 1)
    fuel := 2 }

/-- C9 counterexample: with both baseline linearity readings 0 (both
channels' means are NaN in the source's float arithmetic), the controller
does not transition to any fault after the linearity estimation: the
frequency point proceeds through equilibrium and the sampling loop and
completes normally.  (In the embedding's total `ℚ` arithmetic the zero
divisions evaluate to 0; the control flow — no check between `n_measure`
and `equilibrio`, no linearity fault site at all — is the refuted part
and is independent of that convention.) -/
theorem c9_no_fault_counterexample :
    (n_measure_calc 4 c9cfg.vdc_nominal c9env.nReads).X0 = 0 ∧
    (n_measure_calc 4 c9cfg.vdc_nominal c9env.nReads).Y0 = 0 ∧
    freqPoint c9cfg c9env =
      PointResult.ok
        ⟨1, [0], [0], [⟨[1, 1, 1, 1, 1], [1, 1, 1, 1, 1], 0, 0, 10⟩], 10,
          some (1, 1)⟩ := by
  refine ⟨rfl, rfl, ?_⟩
  have hr : List.range 4 = [0, 1, 2, 3] := rfl
  have hn : freq_n c9cfg c9env = ⟨0, numpy_var1 [-100, 100, -100, 100],
      0, numpy_var1 [-100, 100, -100, 100]⟩ := by
    norm_num [freq_n, n_measure_calc, numpy_mean, c9env, c9cfg, hr]
  have hv : freq_vac c9cfg c9env = 999/100 := by
    norm_num [freq_vac, equilibrio_calc, numpy_interp2, c9env, c9cfg]
  rw [freqPoint, freq_loop, hn, hv]
  norm_num [run_loop, loop_iter, measure_acdc, acdc_calc, numpy_mean,
    initLoopState, c9env, c9cfg]

/-- C9 amended: the controller performs no finiteness (or any other)
check on the linearity means.  The equilibrium voltage and the
pre-sampling fault decision are independent of the linearity readings
(replacing them changes neither), and the only outcomes of a frequency
point are the AC safety error, the DC safety error, normal completion, or
(model only) fuel exhaustion — there is no linearity fault. -/
theorem c9_no_linearity_fault (cfg : MeasConfig) (env : FreqEnv)
    (nr : ℕ → ℚ × ℚ) :
    freq_vac cfg { env with nReads := nr } = freq_vac cfg env ∧
    (freqPoint cfg { env with nReads := nr } = PointResult.err MainError.acHigh ↔
      freqPoint cfg env = PointResult.err MainError.acHigh) ∧
    (freqPoint cfg env = PointResult.err MainError.acHigh ∨
      freqPoint cfg env = PointResult.err MainError.dcHigh ∨
      (freqPoint cfg env).isOk = true ∨
      freqPoint cfg env = PointResult.stuck) := by
  refine ⟨rfl, ?_, ?_⟩
  · by_cases hv : freq_vac cfg env > 11/10 * cfg.vac_nominal
    · have hv' : freq_vac cfg { env with nReads := nr } >
          11/10 * cfg.vac_nominal := hv
      rw [freqPoint, freqPoint, if_pos hv, if_pos hv']
    · have hv' : ¬(freq_vac cfg { env with nReads := nr } >
          11/10 * cfg.vac_nominal) := hv
      constructor <;> intro hc
      · rw [freqPoint, if_neg hv'] at hc
        cases hl : freq_loop cfg { env with nReads := nr } <;>
          rw [hl] at hc <;> simp at hc
      · rw [freqPoint, if_neg hv] at hc
        cases hl : freq_loop cfg env <;> rw [hl] at hc <;> simp at hc
  · rw [freqPoint]
    by_cases hv : freq_vac cfg env > 11/10 * cfg.vac_nominal
    · rw [if_pos hv]
      exact Or.inl rfl
    · rw [if_neg hv]
      cases hl : freq_loop cfg env <;> simp [PointResult.isOk]

/-- C10: the sampling loop's DC safety comparison
`vdc_atual > 1.1*vdc_nominal` fires only for values strictly greater
than the bound; on a NaN corrected voltage the IEEE comparison is false,
so no fault is raised and the loop continues with the NaN applied DC —
and `adj_dc` is NaN for example when `Ydc = 0` with `Yac = 0` (the
division by the zero `Ydc`) or when `n_Y = 0` (zero denominator
`n_Y*Ydc`); likewise any correction not exceeding the bound — including
arbitrarily negative ones, such as the instantiated `q` — never triggers
it. -/
theorem c10_dc_guard_nan (nom q : ℚ) (hq : q ≤ 11/10 * nom) :
    (∀ r : ℚ, dc_check_fv (FV.fin r) nom = decide (r > 11/10 * nom)) ∧
    dc_check_fv FV.nan nom = false ∧
    adj_dc_fv (FV.fin 0) (FV.fin 0) (FV.fin 1) (FV.fin 10) = FV.nan ∧
    adj_dc_fv (FV.fin 1) (FV.fin 1) (FV.fin 0) (FV.fin 10) = FV.nan ∧
    dc_check_fv (adj_dc_fv (FV.fin 0) (FV.fin 0) (FV.fin 1) (FV.fin 10)) nom
      = false ∧
    dc_check_fv (FV.fin q) nom = false := by
  have hnan : adj_dc_fv (FV.fin 0) (FV.fin 0) (FV.fin 1) (FV.fin 10) = FV.nan := by
    norm_num [adj_dc_fv, fvSub, fvMul, fvDiv, fvAdd]
  have hnan2 : adj_dc_fv (FV.fin 1) (FV.fin 1) (FV.fin 0) (FV.fin 10) = FV.nan := by
    norm_num [adj_dc_fv, fvSub, fvMul, fvDiv, fvAdd]
  refine ⟨fun r => rfl, rfl, hnan, hnan2, ?_, ?_⟩
  · rw [hnan]
    rfl
  · rw [dc_check_fv, fvGt]
    exact decide_eq_false (not_lt.mpr hq)

/-- Witness for C10 at an arbitrarily negative correction
`q = -1000000` with `vdc_nominal = 10`. -/
theorem c10_dc_guard_nan_witness :
    (∀ r : ℚ, dc_check_fv (FV.fin r) 10 = decide (r > 11/10 * 10)) ∧
    dc_check_fv FV.nan 10 = false ∧
    adj_dc_fv (FV.fin 0) (FV.fin 0) (FV.fin 1) (FV.fin 10) = FV.nan ∧
    adj_dc_fv (FV.fin 1) (FV.fin 1) (FV.fin 0) (FV.fin 10) = FV.nan ∧
    dc_check_fv (adj_dc_fv (FV.fin 0) (FV.fin 0) (FV.fin 1) (FV.fin 10)) 10
      = false ∧
    dc_check_fv (FV.fin (-1000000)) 10 = false :=
  c10_dc_guard_nan 10 (-1000000) (by norm_num)
